import Mathlib

set_option maxRecDepth 100000

/-!
# udp-wait-and-send (lmic_pi): a shallow embedding

Embedding of `examples/udp-wait-and-send/udp-wait-and-send.cpp`.

* Memory bytes (`char`, `u1_t`) are natural numbers, the unsigned value of the
  byte; the conversion `char -> u1_t` of `mydata[i] = buf[i]` keeps the byte.
* The arrays `buffer` and `mydata` are lists; a well-formed state has both of
  length 256.  An access outside the list is the fault `Halt.outOfRange`
  (undefined behaviour of the C program).
* Calls into the LMIC library, libc and wiringPi are taken from an
  environment `Env`; what the program hands to them is recorded, in program
  order, as a list of `Effect`s.
* The Listener thread and the scheduler loop are interleaved at the
  granularity of whole steps; torn reads of `buffer` are not modelled.
-/

namespace UdpWaitAndSend

/-! ## Data model -/

/-- Data rates `_dr_eu868_t`.  Modelled from the spec: the enumeration is declared
in the LMIC header `lorabase.h`, which is not part of the sources; the program
only names `DR_SF7` .. `DR_SF12`. -/
inductive _dr_eu868_t
  | DR_SF12 | DR_SF11 | DR_SF10 | DR_SF9 | DR_SF8 | DR_SF7 | DR_SF7B | DR_FSK | DR_NONE
  deriving DecidableEq, Repr

/-- Radio events `ev_t`.  Modelled from the spec: the enumeration is declared in
the LMIC header `lmic.h`, which is not part of the sources; the program only
names `EV_TXCOMPLETE`, every other event is `other code`. -/
inductive ev_t
  | EV_TXCOMPLETE
  | other (code : Nat)
  deriving DecidableEq, Repr

/-- The two fields of the global `LMIC` the program reads: `LMIC.opmode`
(`u2_t`) and `LMIC.dataLen` (`u1_t`). -/
structure lmic_t where
  opmode : Nat
  dataLen : Nat
  deriving DecidableEq, Repr

/-- The mutable globals of the program: `char buffer[256]`, `u1_t mydata[256]`
and the transport's `LMIC`. -/
structure State where
  buffer : List Nat
  mydata : List Nat
  LMIC : lmic_t
  deriving DecidableEq, Repr

/-- Ways a step can stop the program: an array access out of range (undefined
behaviour), or `exit(code)` from `die`. -/
inductive Halt
  | outOfRange
  | exit (code : Nat)
  deriving DecidableEq, Repr

/-- Lines the program writes to standard output. -/
inductive Out
  /-- Line `"[%x] (%ld) %s\n", hal_ticks(), t, ctime(&t)` of `do_send`. -/
  | stamp (ticks : Nat) (t : Int)
  /-- Line `"OP_TXRXPEND, not sending"` of `do_send`. -/
  | txrxpend
  /-- Line `"buf size = %d\n", i` of `do_send`. -/
  | bufSize (i : Nat)
  /-- Line `"Event EV_TXCOMPLETE, time: %d\n", millis() / 1000` of `onEvent`. -/
  | txcomplete (secs : Nat)
  /-- Line `"Data Received!\n"` of `onEvent`. -/
  | dataReceived
  /-- Warning `warn("datagram too large for buffer: truncated")` of the Listener. -/
  | truncated
  /-- Line `"Received packet from %s:%d\nData: %s\n\n"` of the Listener, with
  the bytes that `%s` prints. -/
  | received (addr port : Nat) (data : List Nat)
  deriving DecidableEq, Repr

/-- The timed job slot `sendjob`. -/
inductive osjob_t
  | sendjob
  deriving DecidableEq, Repr

/-- Callbacks the program registers. -/
inductive Callback
  | do_send
  deriving DecidableEq, Repr

/-- What a step hands to the outside, in program order. -/
inductive Effect
  | out (o : Out)
  /-- Call `LMIC_setTxData2(port, data, dlen, confirmed)`, with the value it returned. -/
  | setTxData2 (port : Nat) (data : List Nat) (dlen : Nat) (confirmed : Nat) (ret : Int)
  /-- Call `os_setTimedCallback(job, time, cb)`. -/
  | setTimedCallback (job : osjob_t) (time : Int) (cb : Callback)
  deriving DecidableEq, Repr

/-- What the outside gives to one firing or one callback: clock readings, the
tick rate, and the transport's `LMIC_setTxData2` (new `LMIC`, return value). -/
structure Env where
  hal_ticks : Nat
  time : Int
  millis : Nat
  os_getTime : Int
  OSTICKS_PER_SEC : Int
  LMIC_setTxData2 : lmic_t → Nat → List Nat → Nat → Nat → lmic_t × Int

/-- Result of one `recvfrom` call: failure (`-1`) or a datagram with its source. -/
inductive RecvResult
  | failure
  | datagram (payload : List Nat) (addr port : Nat)
  deriving DecidableEq, Repr

deriving instance DecidableEq for Except

/-! ## Constants and initial state -/

/-- Bytes of a string literal. -/
def bytes (s : String) : List Nat := s.toList.map Char.toNat

/-- Initial value: `char buffer[256] = { "NO Data !!! " }`. -/
def initBuffer : List Nat := bytes "NO Data !!! " ++ List.replicate 244 0

/-- Initial value: `u1_t mydata[256] = { " " }`. -/
def initMydata : List Nat := bytes " " ++ List.replicate 255 0

/-- State at program start, after `LMIC_reset` (`opmode = OP_NONE`). -/
def initState : State := ⟨initBuffer, initMydata, ⟨0, 0⟩⟩

/-- Wrap to `s4_t`, the type of `ostime_t`.  Modelled from the spec: `ostime_t`
is declared in the LMIC header `oslmic.h`, which is not part of the sources. -/
def s4 (x : Int) : Int := (x + 2147483648) % 4294967296 - 2147483648

/-- The macro `sec2osticks(sec)`.  Modelled from the spec: it is defined in the
LMIC header `oslmic.h` as `(ostime_t)((s8_t)(sec) * OSTICKS_PER_SEC)`, which is
not part of the sources; the tick rate is a parameter. -/
def sec2osticks (env : Env) (sec : Int) : Int := s4 (sec * env.OSTICKS_PER_SEC)

/-- Test of the pending flag: `LMIC.opmode & (1 << 7)`. -/
def txrxPending (L : lmic_t) : Bool := L.opmode &&& (1 <<< 7) != 0

/-- Well-formed state: both arrays have their declared size. -/
def State.wf (s : State) : Prop := s.buffer.length = 256 ∧ s.mydata.length = 256

instance (s : State) : Decidable s.wf := by unfold State.wf; infer_instance

/-! ## check_spreading_factor -/

/-- Source: `check_spreading_factor(int factor)`, lines 216-244. -/
def check_spreading_factor (factor : Int) : _dr_eu868_t :=
  if factor = 7 then _dr_eu868_t.DR_SF7
  else if factor = 8 then _dr_eu868_t.DR_SF8
  else if factor = 9 then _dr_eu868_t.DR_SF9
  else if factor = 10 then _dr_eu868_t.DR_SF10
  else if factor = 11 then _dr_eu868_t.DR_SF11
  else if factor = 12 then _dr_eu868_t.DR_SF12
  else _dr_eu868_t.DR_SF7

/-! ## do_send -/

/-- The loop `while (buf[i]) { mydata[i] = buf[i]; i++; }` of `do_send`.  The
first argument is the part of `buf` not yet read, `buf[i..]`; when it is empty
the read `buf[i]` is past the end of the array.  Returns `mydata` and `i` at
loop exit. -/
def copyLoop : List Nat → List Nat → Nat → Except Halt (List Nat × Nat)
  | [], _, _ => .error .outOfRange
  | c :: rest, mydata, i =>
    if c = 0 then .ok (mydata, i)
    else if i < mydata.length then copyLoop rest (mydata.set i c) (i + 1)
    else .error .outOfRange

/-- Libc `strlen` on an array: index of the first zero byte; running past the
end of the array is out of range. -/
def strlen : List Nat → Except Halt Nat
  | [] => .error .outOfRange
  | c :: rest =>
    if c = 0 then .ok 0
    else match strlen rest with
      | .ok n => .ok (n + 1)
      | .error h => .error h

/-- The call `os_setTimedCallback(j, os_getTime() + sec2osticks(20), do_send)`
that ends `do_send`; `j` is `&sendjob`. -/
def reschedule (env : Env) : Effect :=
  .setTimedCallback .sendjob (s4 (env.os_getTime + sec2osticks env 20)) .do_send

/-- Source: `do_send(osjob_t *j)`, lines 167-190.  The length argument
`strlen(buf)` is converted to the `u1_t` parameter `dlen`. -/
def do_send (env : Env) (s : State) : Except Halt (State × List Effect) :=
  let stamp := Effect.out (.stamp env.hal_ticks env.time)
  if txrxPending s.LMIC then
    .ok (s, [stamp, .out .txrxpend, reschedule env])
  else
    match copyLoop s.buffer s.mydata 0 with
    | .error h => .error h
    | .ok (md, i) =>
      if i < md.length then
        let md1 := md.set i 0
        match strlen s.buffer with
        | .error h => .error h
        | .ok n =>
          let r := env.LMIC_setTxData2 s.LMIC 1 md1 (n % 256) 0
          .ok (⟨s.buffer, md1, r.1⟩,
            [stamp, .out (.bufSize i), .setTxData2 1 md1 (n % 256) 0 r.2, reschedule env])
      else .error .outOfRange

/-! ## onEvent -/

/-- Source: `onEvent(ev_t ev)`, lines 119-138. -/
def onEvent (env : Env) (s : State) (ev : ev_t) : State × List Effect :=
  match ev with
  | .EV_TXCOMPLETE =>
    (s, Effect.out (.txcomplete (env.millis / 1000)) ::
      (if s.LMIC.dataLen ≠ 0 then [Effect.out .dataReceived] else []))
  | .other _ => (s, [])

/-! ## wait_for_datagram -/

/-- POSIX `recvfrom(s, buf, len, 0, ...)` on a datagram socket: the first
`min (length payload) len` bytes of the datagram overwrite the start of `buf`,
the rest of `buf` is untouched, and that count is returned. -/
def recvfrom (buf : List Nat) (len : Nat) (payload : List Nat) : List Nat × Nat :=
  let count := min payload.length len
  (payload.take count ++ buf.drop count, count)

/-- Bytes `printf("%s", buf)` prints: those before the first zero byte; running
past the end of the array is out of range. -/
def cstring : List Nat → Except Halt (List Nat)
  | [] => .error .outOfRange
  | c :: rest =>
    if c = 0 then .ok []
    else match cstring rest with
      | .ok l => .ok (c :: l)
      | .error h => .error h

/-- Source: one iteration of the loop of `wait_for_datagram`, lines 146-160. -/
def wait_for_datagram (s : State) (r : RecvResult) : Except Halt (State × List Effect) :=
  match r with
  | .failure => .error (.exit 1)
  | .datagram payload addr port =>
    let rc := recvfrom s.buffer 256 payload
    let s1 : State := ⟨rc.1, s.mydata, s.LMIC⟩
    if rc.2 = 256 then
      .ok (s1, [.out .truncated])
    else
      match cstring rc.1 with
      | .error h => .error h
      | .ok str => .ok (s1, [.out (.received addr port str)])


/-! ## Runs of the scheduler -/

/-- The transport's `LMIC_setTxData2`.  Modelled from the spec: the LMIC library is
not part of the sources.  Whether a submission is accepted is the transport's
choice `accept`; an accepted submission sets the pending flag `OP_TXRXPEND`
(`0x80`) and returns 0, a refused one changes nothing and returns non-zero. -/
def LMIC_setTxData2 (accept : Bool) (L : lmic_t) (_port : Nat) (_data : List Nat)
    (_dlen _confirmed : Nat) : lmic_t × Int :=
  if accept then (⟨L.opmode ||| 128, L.dataLen⟩, 0) else (L, -1)

/-- The transport's side of reporting an event.  Modelled from the spec: the LMIC
library is not part of the sources.  The pending flag is held until the
transport reports `EV_TXCOMPLETE`: it clears `OP_TXRXPEND` in the 16-bit
`opmode` and stores the downlink length, then calls `onEvent`. -/
def reportEvent (L : lmic_t) (ev : ev_t) (dataLen : Nat) : lmic_t :=
  match ev with
  | .EV_TXCOMPLETE => ⟨L.opmode &&& 0xFF7F, dataLen⟩
  | .other _ => L

/-- One step of a run: the timed job `do_send` fires, the transport reports an
event to `onEvent`, or the Listener gets the result of a `recvfrom`. -/
inductive Step
  | fire (hal_ticks : Nat) (time os_getTime ticksPerSec : Int) (accept : Bool)
  | radio (ev : ev_t) (millis dataLen : Nat)
  | recv (r : RecvResult)
  deriving DecidableEq, Repr

/-- What a run shows: the effects of the program, and the events reported to it. -/
inductive Obs
  | effect (e : Effect)
  | event (ev : ev_t)
  deriving DecidableEq, Repr

/-- Environment of a firing in a run. -/
def fireEnv (hal_ticks : Nat) (time os_getTime ticksPerSec : Int) (accept : Bool) : Env :=
  ⟨hal_ticks, time, 0, os_getTime, ticksPerSec, LMIC_setTxData2 accept⟩

/-- Environment of an event callback in a run. -/
def eventEnv (millis : Nat) : Env :=
  ⟨0, 0, millis, 0, 0, LMIC_setTxData2 false⟩

/-- Trace of a run from state `s`.  A step that halts the program ends the run. -/
def run : State → List Step → List Obs
  | _, [] => []
  | s, .fire h t now tps accept :: rest =>
    match do_send (fireEnv h t now tps accept) s with
    | .error _ => []
    | .ok (s1, effs) => effs.map Obs.effect ++ run s1 rest
  | s, .radio ev millis dataLen :: rest =>
    let r := onEvent (eventEnv millis) ⟨s.buffer, s.mydata, reportEvent s.LMIC ev dataLen⟩ ev
    Obs.event ev :: (r.2.map Obs.effect ++ run r.1 rest)
  | s, .recv r :: rest =>
    match wait_for_datagram s r with
    | .error _ => []
    | .ok (s1, effs) => effs.map Obs.effect ++ run s1 rest

/-- One step of a run from state `s`: the state after it and what it shows.  It
is the step function of `run`. -/
def step (s : State) : Step → Except Halt (State × List Obs)
  | .fire h t now tps accept =>
    match do_send (fireEnv h t now tps accept) s with
    | .error e => .error e
    | .ok (s1, effs) => .ok (s1, effs.map Obs.effect)
  | .radio ev millis dataLen =>
    let r := onEvent (eventEnv millis) ⟨s.buffer, s.mydata, reportEvent s.LMIC ev dataLen⟩ ev
    .ok (r.1, Obs.event ev :: r.2.map Obs.effect)
  | .recv r =>
    match wait_for_datagram s r with
    | .error e => .error e
    | .ok (s1, effs) => .ok (s1, effs.map Obs.effect)

/-- No overlapping submissions in a trace.  `inFlight` says that an accepted
submission (`LMIC_setTxData2` returned 0) has not yet been matched by an
`EV_TXCOMPLETE`; while it is so, no `LMIC_setTxData2` call may appear. -/
def noOverlap : Bool → List Obs → Bool
  | _, [] => true
  | _, .event .EV_TXCOMPLETE :: t => noOverlap false t
  | inFlight, .event (.other _) :: t => noOverlap inFlight t
  | inFlight, .effect (.setTxData2 _ _ _ _ ret) :: t => !inFlight && noOverlap (ret == 0) t
  | inFlight, .effect (.out _) :: t => noOverlap inFlight t
  | inFlight, .effect (.setTimedCallback _ _ _) :: t => noOverlap inFlight t

/-- Lines written to standard output among the effects. -/
def stdout : List Effect → List Out
  | [] => []
  | .out o :: t => o :: stdout t
  | _ :: t => stdout t

/-- The `LMIC_setTxData2` calls among the effects: port, frame (the first `dlen`
bytes of the array passed), length, confirmation. -/
def submissions : List Effect → List (Nat × List Nat × Nat × Nat)
  | [] => []
  | .setTxData2 port data dlen confirmed _ :: t =>
    (port, data.take dlen, dlen, confirmed) :: submissions t
  | _ :: t => submissions t

/-- The `os_setTimedCallback` calls among the effects. -/
def schedules : List Effect → List (osjob_t × Int × Callback)
  | [] => []
  | .setTimedCallback j time cb :: t => (j, time, cb) :: schedules t
  | _ :: t => schedules t

/-! ## Sample inputs -/

/-- A firing environment whose transport accepts the submission. -/
def acceptingEnv : Env := fireEnv 0 0 0 32768 true

/-- A firing environment whose transport refuses the submission. -/
def refusingEnv : Env := fireEnv 0 0 0 32768 false

/-- The initial state with the pending flag `OP_TXRXPEND` set. -/
def pendingState : State := ⟨initBuffer, initMydata, ⟨128, 0⟩⟩

/-- A datagram of 256 bytes `A`. -/
def fullDatagram : List Nat := List.replicate 256 65

/-- The state the Listener leaves after `fullDatagram`: no zero byte in `buffer`. -/
def unterminatedState : State := ⟨fullDatagram, initMydata, ⟨0, 0⟩⟩

/-- The sentinel default payload. -/
def sentinel : List Nat := bytes "NO Data !!! "

/-! ## Helper lemmas -/

/-- The copy loop on a buffer `pre ++ 0 :: post` whose part `pre` has no zero
byte: it stops at the zero, having written `pre` over `mydata[i ..]`. -/
theorem copyLoop_terminated (pre post a c : List Nat) (hpre : 0 ∉ pre) :
    ∀ b : List Nat, b.length = pre.length →
      copyLoop (pre ++ 0 :: post) (a ++ b ++ c) a.length
        = .ok (a ++ pre ++ c, a.length + pre.length) := by
  induction pre generalizing a with
  | nil =>
    intro b hb
    have : b = [] := List.length_eq_zero.mp hb
    subst this
    simp [copyLoop]
  | cons p pre ih =>
    intro b hb
    cases b with
    | nil => simp at hb
    | cons b0 b =>
      have hp : p ≠ 0 := fun h => hpre (by simp [h])
      have hpre1 : 0 ∉ pre := fun h => hpre (by simp [h])
      have hlen : b.length = pre.length := by simpa using hb
      have hlt : a.length < (a ++ (b0 :: b) ++ c).length := by simp
      have hset : (a ++ (b0 :: b) ++ c).set a.length p = (a ++ [p]) ++ b ++ c := by
        simp [List.append_assoc]
      have hrec := ih (a ++ [p]) hpre1 b hlen
      simp only [List.length_append, List.length_singleton] at hrec
      have hstep : copyLoop ((p :: pre) ++ 0 :: post) (a ++ (b0 :: b) ++ c) a.length
          = copyLoop (pre ++ 0 :: post) ((a ++ (b0 :: b) ++ c).set a.length p)
              (a.length + 1) := by
        show copyLoop (p :: (pre ++ 0 :: post)) _ _ = _
        rw [copyLoop, if_neg hp, if_pos hlt]
      rw [hstep, hset, hrec]
      simp [List.append_assoc, Nat.add_assoc, Nat.add_comm 1]

/-- Libc `strlen` finds the first zero byte. -/
theorem strlen_terminated (pre post : List Nat) (hpre : 0 ∉ pre) :
    strlen (pre ++ 0 :: post) = .ok pre.length := by
  induction pre with
  | nil => simp [strlen]
  | cons p pre ih =>
    have hp : p ≠ 0 := fun h => hpre (by simp [h])
    have hpre1 : 0 ∉ pre := fun h => hpre (by simp [h])
    simp [strlen, hp, ih hpre1]

/-- What `%s` prints of a terminated buffer. -/
theorem cstring_terminated (pre post : List Nat) (hpre : 0 ∉ pre) :
    cstring (pre ++ 0 :: post) = .ok pre := by
  induction pre with
  | nil => simp [cstring]
  | cons p pre ih =>
    have hp : p ≠ 0 := fun h => hpre (by simp [h])
    have hpre1 : 0 ∉ pre := fun h => hpre (by simp [h])
    simp [cstring, hp, ih hpre1]

/-- The pending branch of `do_send`. -/
theorem do_send_pending (env : Env) (s : State) (h : txrxPending s.LMIC = true) :
    do_send env s
      = .ok (s, [.out (.stamp env.hal_ticks env.time), .out .txrxpend, reschedule env]) := by
  simp [do_send, h]

/-- The idle branch of `do_send` on a terminated buffer `pre ++ 0 :: post`. -/
theorem do_send_idle (env : Env) (s : State) (hwf : s.wf)
    (hidle : txrxPending s.LMIC = false) (pre post : List Nat)
    (hb : s.buffer = pre ++ 0 :: post) (hpre : 0 ∉ pre) :
    do_send env s
      = .ok (⟨s.buffer, pre ++ 0 :: s.mydata.drop (pre.length + 1),
              (env.LMIC_setTxData2 s.LMIC 1
                (pre ++ 0 :: s.mydata.drop (pre.length + 1)) pre.length 0).1⟩,
             [.out (.stamp env.hal_ticks env.time), .out (.bufSize pre.length),
              .setTxData2 1 (pre ++ 0 :: s.mydata.drop (pre.length + 1)) pre.length 0
                (env.LMIC_setTxData2 s.LMIC 1
                  (pre ++ 0 :: s.mydata.drop (pre.length + 1)) pre.length 0).2,
              reschedule env]) := by
  obtain ⟨hbl, hml⟩ := hwf
  have hlen : pre.length + (post.length + 1) = 256 := by
    have := hbl; rw [hb] at this; simpa using this
  have hlt : pre.length < s.mydata.length := by omega
  have hsplit : s.mydata = [] ++ s.mydata.take pre.length ++ s.mydata.drop pre.length := by
    simp
  have hcopy := copyLoop_terminated pre post [] (s.mydata.drop pre.length) hpre
    (s.mydata.take pre.length) (by simp; omega)
  rw [← hsplit] at hcopy
  simp only [List.length_nil, Nat.zero_add, List.nil_append] at hcopy
  have hset : (pre ++ s.mydata.drop pre.length).set pre.length 0
      = pre ++ 0 :: s.mydata.drop (pre.length + 1) := by
    obtain ⟨x, hx⟩ : ∃ x, s.mydata.drop pre.length = x :: s.mydata.drop (pre.length + 1) :=
      ⟨_, List.drop_eq_getElem_cons hlt⟩
    rw [hx]; simp
  have hlt2 : pre.length < (pre ++ s.mydata.drop pre.length).length := by
    simp; omega
  have hmod : pre.length % 256 = pre.length := Nat.mod_eq_of_lt (by omega)
  have hstr := strlen_terminated pre post hpre
  rw [← hb] at hcopy hstr
  simp only [do_send, hidle, hcopy, hstr, hset, hmod, if_pos hlt2, Bool.false_eq_true,
    if_false]

/-- Shape of the result of an idle firing that returns. -/
theorem do_send_idle_shape (env : Env) (s s1 : State) (effs : List Effect)
    (hidle : txrxPending s.LMIC = false) (h : do_send env s = .ok (s1, effs)) :
    ∃ md i n, s1 = ⟨s.buffer, md, (env.LMIC_setTxData2 s.LMIC 1 md n 0).1⟩
      ∧ effs = [.out (.stamp env.hal_ticks env.time), .out (.bufSize i),
          .setTxData2 1 md n 0 (env.LMIC_setTxData2 s.LMIC 1 md n 0).2, reschedule env] := by
  simp only [do_send, hidle, Bool.false_eq_true, if_false] at h
  split at h
  · cases h
  · rename_i md i _
    split at h
    · split at h
      · cases h
      · rename_i n _
        simp only [Except.ok.injEq, Prod.mk.injEq] at h
        exact ⟨_, i, n % 256, h.1.symm, h.2.symm⟩
    · cases h

/-- Setting `OP_TXRXPEND` makes the pending test succeed. -/
theorem txrxPending_set (op d : Nat) : txrxPending ⟨op ||| 128, d⟩ = true := by
  have h : (op ||| 128) &&& 128 ≠ 0 := by
    intro h0
    have h7 : Nat.testBit 128 7 = true := by decide
    have := congrArg (fun x => Nat.testBit x 7) h0
    simp [Nat.testBit_land, Nat.testBit_lor, h7] at this
  simpa [txrxPending] using h

/-- Clearing `OP_TXRXPEND` makes the pending test fail. -/
theorem txrxPending_clear (op d : Nat) : txrxPending ⟨op &&& 0xFF7F, d⟩ = false := by
  have h : (op &&& 0xFF7F) &&& 128 = 0 := by
    have hc : (0xFF7F &&& 128 : Nat) = 0 := by decide
    rw [Nat.land_assoc, hc]; simp
  simpa [txrxPending] using h

/-- From any state, the trace of a run passes the check `noOverlap`, the
in-flight marker starting as the pending flag. -/
theorem run_noOverlap (steps : List Step) :
    ∀ s : State, noOverlap (txrxPending s.LMIC) (run s steps) = true := by
  induction steps with
  | nil => intro s; simp [run, noOverlap]
  | cons st rest ih =>
    intro s
    cases st with
    | fire h t now tps accept =>
      simp only [run]
      cases hres : do_send (fireEnv h t now tps accept) s with
      | error e => simp [noOverlap]
      | ok r =>
        obtain ⟨s1, effs⟩ := r
        cases hp : txrxPending s.LMIC with
        | true =>
          rw [do_send_pending _ _ hp] at hres
          simp only [Except.ok.injEq, Prod.mk.injEq] at hres
          obtain ⟨hs, he⟩ := hres
          subst hs; subst he
          have := ih s
          rw [hp] at this
          simpa [noOverlap, reschedule] using this
        | false =>
          obtain ⟨md, i, n, hs, he⟩ := do_send_idle_shape _ _ _ _ hp hres
          subst hs; subst he
          cases accept with
          | true =>
            have := ih ⟨s.buffer, md, ⟨s.LMIC.opmode ||| 128, s.LMIC.dataLen⟩⟩
            rw [txrxPending_set] at this
            simpa [noOverlap, reschedule, fireEnv, LMIC_setTxData2] using this
          | false =>
            have := ih ⟨s.buffer, md, s.LMIC⟩
            rw [hp] at this
            simpa [noOverlap, reschedule, fireEnv, LMIC_setTxData2] using this
    | radio ev millis dataLen =>
      cases ev with
      | EV_TXCOMPLETE =>
        have := ih ⟨s.buffer, s.mydata, ⟨s.LMIC.opmode &&& 0xFF7F, dataLen⟩⟩
        rw [txrxPending_clear] at this
        by_cases hd : dataLen = 0 <;>
          simpa [run, noOverlap, onEvent, reportEvent, hd] using this
      | other code =>
        have := ih s
        simpa [run, noOverlap, onEvent, reportEvent] using this
    | recv r =>
      simp only [run]
      cases hres : wait_for_datagram s r with
      | error e => simp [noOverlap]
      | ok r1 =>
        obtain ⟨s1, effs⟩ := r1
        cases r with
        | failure => simp [wait_for_datagram] at hres
        | datagram payload addr port =>
          simp only [wait_for_datagram] at hres
          split at hres
          · simp only [Except.ok.injEq, Prod.mk.injEq] at hres
            obtain ⟨hs, he⟩ := hres
            subst hs; subst he
            simpa [noOverlap] using ih ⟨(recvfrom s.buffer 256 payload).1, s.mydata, s.LMIC⟩
          · split at hres
            · cases hres
            · simp only [Except.ok.injEq, Prod.mk.injEq] at hres
              obtain ⟨hs, he⟩ := hres
              subst hs; subst he
              simpa [noOverlap] using ih ⟨(recvfrom s.buffer 256 payload).1, s.mydata, s.LMIC⟩

/-- The copy loop started at index 0 on a terminated buffer. -/
theorem copyLoop_buffer (pre post md : List Nat) (hpre : 0 ∉ pre)
    (hlen : pre.length ≤ md.length) :
    copyLoop (pre ++ 0 :: post) md 0 = .ok (pre ++ md.drop pre.length, pre.length) := by
  have hsplit : md = [] ++ md.take pre.length ++ md.drop pre.length := by simp
  have hcopy := copyLoop_terminated pre post [] (md.drop pre.length) hpre
    (md.take pre.length) (by simp; omega)
  rw [← hsplit] at hcopy
  simpa using hcopy

/-- Reading the trace check: in a trace that passes `noOverlap`, a submission
is never made while one is in flight, and between an accepted submission and
any later submission there is an `EV_TXCOMPLETE`. -/
theorem noOverlap_between (t : List Obs) :
    ∀ f : Bool, noOverlap f t = true →
      (f = true → ∀ (j p : Nat) (d : List Nat) (n c : Nat) (r : Int), t[j]? = some (Obs.effect (Effect.setTxData2 p d n c r)) →
        ∃ k, k < j ∧ t[k]? = some (Obs.event ev_t.EV_TXCOMPLETE))
      ∧ (∀ (i j p : Nat) (d : List Nat) (n c p1 : Nat) (d1 : List Nat) (n1 c1 : Nat) (r1 : Int), i < j →
          t[i]? = some (Obs.effect (Effect.setTxData2 p d n c 0)) →
          t[j]? = some (Obs.effect (Effect.setTxData2 p1 d1 n1 c1 r1)) →
          ∃ k, i < k ∧ k < j ∧ t[k]? = some (Obs.event ev_t.EV_TXCOMPLETE)) := by
  induction t with
  | nil => intro f _; simp
  | cons o t ih =>
    intro f h
    have lift : ∀ g : Bool, noOverlap g t = true →
        ∀ (i j p : Nat) (d : List Nat) (n c p1 : Nat) (d1 : List Nat) (n1 c1 : Nat) (r1 : Int), i < j →
          (o :: t)[i]? = some (Obs.effect (Effect.setTxData2 p d n c 0)) →
          (o :: t)[j]? = some (Obs.effect (Effect.setTxData2 p1 d1 n1 c1 r1)) →
          (∀ (p : Nat) (d : List Nat) (n c : Nat) (r : Int), o = Obs.effect (Effect.setTxData2 p d n c r) → r = 0 → g = true) →
          ∃ k, i < k ∧ k < j ∧ (o :: t)[k]? = some (Obs.event ev_t.EV_TXCOMPLETE) := by
      intro g hg i j p d n c p1 d1 n1 c1 r1 hij hi hj ho
      cases j with
      | zero => omega
      | succ j =>
        rw [List.getElem?_cons_succ] at hj
        cases i with
        | zero =>
          rw [List.getElem?_cons_zero] at hi
          have hg1 : g = true := ho _ _ _ _ _ (Option.some.inj hi) rfl
          obtain ⟨k, hk, hk1⟩ := (ih g hg).1 hg1 j _ _ _ _ _ hj
          exact ⟨k + 1, by omega, by omega, by simpa using hk1⟩
        | succ i =>
          rw [List.getElem?_cons_succ] at hi
          obtain ⟨k, hk0, hk, hk1⟩ := (ih g hg).2 i j _ _ _ _ _ _ _ _ _ (by omega) hi hj
          exact ⟨k + 1, by omega, by omega, by simpa using hk1⟩
    have skip : ∀ g : Bool, noOverlap g t = true → (f = true → g = true) →
        (∀ (p : Nat) (d : List Nat) (n c : Nat) (r : Int), o ≠ Obs.effect (Effect.setTxData2 p d n c r)) →
        f = true → ∀ (j p : Nat) (d : List Nat) (n c : Nat) (r : Int), (o :: t)[j]? = some (Obs.effect (Effect.setTxData2 p d n c r)) →
          ∃ k, k < j ∧ (o :: t)[k]? = some (Obs.event ev_t.EV_TXCOMPLETE) := by
      intro g hg hfg hno hf j p d n c r hj
      cases j with
      | zero =>
        rw [List.getElem?_cons_zero] at hj
        exact absurd (Option.some.inj hj) (hno _ _ _ _ _)
      | succ j =>
        rw [List.getElem?_cons_succ] at hj
        obtain ⟨k, hk, hk1⟩ := (ih g hg).1 (hfg hf) j _ _ _ _ _ hj
        exact ⟨k + 1, by omega, by simpa using hk1⟩
    cases o with
    | event ev =>
      cases ev with
      | EV_TXCOMPLETE =>
        simp only [noOverlap] at h
        refine ⟨?_, fun i j p d n c p1 d1 n1 c1 r1 hij hi hj =>
          lift false h i j p d n c p1 d1 n1 c1 r1 hij hi hj (by intro _ _ _ _ _ ho; cases ho)⟩
        intro _ j p d n c r hj
        cases j with
        | zero => simp at hj
        | succ j => exact ⟨0, by omega, by simp⟩
      | other code =>
        simp only [noOverlap] at h
        exact ⟨skip f h id (by intro _ _ _ _ _ ho; cases ho),
          fun i j p d n c p1 d1 n1 c1 r1 hij hi hj =>
            lift f h i j p d n c p1 d1 n1 c1 r1 hij hi hj (by intro _ _ _ _ _ ho; cases ho)⟩
    | effect e =>
      cases e with
      | out x =>
        simp only [noOverlap] at h
        exact ⟨skip f h id (by intro _ _ _ _ _ ho; cases ho),
          fun i j p d n c p1 d1 n1 c1 r1 hij hi hj =>
            lift f h i j p d n c p1 d1 n1 c1 r1 hij hi hj (by intro _ _ _ _ _ ho; cases ho)⟩
      | setTimedCallback a b c =>
        simp only [noOverlap] at h
        exact ⟨skip f h id (by intro _ _ _ _ _ ho; cases ho),
          fun i j p d n c p1 d1 n1 c1 r1 hij hi hj =>
            lift f h i j p d n c p1 d1 n1 c1 r1 hij hi hj (by intro _ _ _ _ _ ho; cases ho)⟩
      | setTxData2 p0 d0 n0 c0 r0 =>
        simp only [noOverlap, Bool.and_eq_true, Bool.not_eq_true'] at h
        obtain ⟨hf, ht⟩ := h
        refine ⟨fun hf1 => (by rw [hf] at hf1; cases hf1),
          fun i j p d n c p1 d1 n1 c1 r1 hij hi hj =>
            lift (r0 == 0) ht i j p d n c p1 d1 n1 c1 r1 hij hi hj ?_⟩
        intro _ _ _ _ r ho hr
        cases ho
        simp [hr]

/-- The initial buffer is the sentinel, a terminator, and 243 more zero bytes. -/
theorem initBuffer_eq : initBuffer = sentinel ++ 0 :: List.replicate 243 0 := by decide

/-- The sentinel has no zero byte. -/
theorem sentinel_nonzero : 0 ∉ sentinel := by decide

/-- Wrapping to `s4_t` keeps the value modulo `2^32`. -/
theorem s4_sub_s4_add (a b : Int) : s4 (s4 (a + s4 b) - a) = s4 b := by
  unfold s4; omega

/-- Wrapping to `s4_t` keeps a value that is in range. -/
theorem s4_of_range (x : Int) (h1 : -2147483648 ≤ x) (h2 : x < 2147483648) : s4 x = x := by
  unfold s4; omega

/-- The element right after a prefix. -/
theorem getElem?_after_pre (pre t : List Nat) (x : Nat) :
    (pre ++ x :: t)[pre.length]? = some x := by
  rw [List.getElem?_append_right (Nat.le_refl _)]; simp

/-- The Listener never writes `LMIC` or `mydata`. -/
theorem wait_for_datagram_frame (s s1 : State) (r : RecvResult) (effs : List Effect)
    (h : wait_for_datagram s r = .ok (s1, effs)) :
    s1.LMIC = s.LMIC ∧ s1.mydata = s.mydata := by
  cases r with
  | failure => simp [wait_for_datagram] at h
  | datagram payload addr port =>
    simp only [wait_for_datagram] at h
    split at h
    · simp only [Except.ok.injEq, Prod.mk.injEq] at h
      obtain ⟨hs, _⟩ := h
      subst hs
      exact ⟨rfl, rfl⟩
    · split at h
      · cases h
      · simp only [Except.ok.injEq, Prod.mk.injEq] at h
        obtain ⟨hs, _⟩ := h
        subst hs
        exact ⟨rfl, rfl⟩

/-- On a buffer with a zero byte the snapshot is repeatable: two idle firings
on states with the same `buffer` both return, leave `buffer` as it was and
submit the same frame and length. -/
theorem do_send_snapshot_repeatable (env1 env2 : Env) (s t : State)
    (hs : s.wf) (ht : t.wf) (hsi : txrxPending s.LMIC = false)
    (hti : txrxPending t.LMIC = false) (hbuf : t.buffer = s.buffer) (hz : 0 ∈ s.buffer) :
    ∃ s1 e1 t1 e2, do_send env1 s = .ok (s1, e1) ∧ do_send env2 t = .ok (t1, e2)
      ∧ s1.buffer = s.buffer ∧ t1.buffer = s.buffer
      ∧ submissions e2 = submissions e1 := by
  obtain ⟨pre, post, hb, hpre⟩ := List.eq_append_cons_of_mem hz
  have h1 := do_send_idle env1 s hs hsi pre post hb hpre
  have h2 := do_send_idle env2 t ht hti pre post (hbuf.trans hb) hpre
  refine ⟨_, _, _, _, h1, h2, rfl, hbuf, ?_⟩
  simp only [submissions, reschedule]
  rw [List.take_left, List.take_left]

/-- The copy loop read by index: with `i` inside `buf`, one round of
`while (buf[i]) { mydata[i] = buf[i]; i++; }` tests `buf[i]`, writes
`mydata[i]` and goes on at `i + 1`; with `i` past the end the read is out of
range. -/
theorem copyLoop_index (buf md : List Nat) (i : Nat) :
    (∀ h : i < buf.length,
      copyLoop (buf.drop i) md i
        = if buf[i] = 0 then .ok (md, i)
          else if i < md.length then copyLoop (buf.drop (i + 1)) (md.set i buf[i]) (i + 1)
          else .error .outOfRange)
    ∧ (buf.length ≤ i → copyLoop (buf.drop i) md i = .error .outOfRange) := by
  constructor
  · intro h
    rw [List.drop_eq_getElem_cons h, copyLoop]
  · intro h
    rw [List.drop_eq_nil_of_le h, copyLoop]

/-- The bytes of the sentinel. -/
theorem sentinel_bytes :
    sentinel = [78, 79, 32, 68, 97, 116, 97, 32, 33, 33, 33, 32] := by decide

/-- The trace of a run is built step by step with `step`. -/
theorem run_cons (s : State) (st : Step) (rest : List Step) :
    run s (st :: rest)
      = match step s st with
        | .error _ => []
        | .ok (s1, obs) => obs ++ run s1 rest := by
  cases st with
  | fire hal t now tps accept =>
    simp only [run, step]
    cases do_send (fireEnv hal t now tps accept) s with
    | error e => rfl
    | ok r => rfl
  | radio ev millis dataLen => simp [run, step]
  | recv r =>
    simp only [run, step]
    cases wait_for_datagram s r with
    | error e => rfl
    | ok r1 => rfl

/-! ## Claims -/

/-- C7: `check_spreading_factor` maps 7, 8, 9, 10, 11, 12 to `DR_SF7`, `DR_SF8`,
`DR_SF9`, `DR_SF10`, `DR_SF11`, `DR_SF12`, and every integer outside 7..12 to
`DR_SF7`; it is total, so no input makes it fail. -/
theorem check_spreading_factor_spec :
    check_spreading_factor 7 = _dr_eu868_t.DR_SF7
    ∧ check_spreading_factor 8 = _dr_eu868_t.DR_SF8
    ∧ check_spreading_factor 9 = _dr_eu868_t.DR_SF9
    ∧ check_spreading_factor 10 = _dr_eu868_t.DR_SF10
    ∧ check_spreading_factor 11 = _dr_eu868_t.DR_SF11
    ∧ check_spreading_factor 12 = _dr_eu868_t.DR_SF12
    ∧ ∀ n : Int, (n < 7 ∨ 12 < n) → check_spreading_factor n = _dr_eu868_t.DR_SF7 := by
  refine ⟨by decide, by decide, by decide, by decide, by decide, by decide, ?_⟩
  intro n h
  unfold check_spreading_factor
  split_ifs <;> first | rfl | omega

/-- Witness for C7: the invalid arguments 99, 0 and -3 give `DR_SF7`. -/
theorem check_spreading_factor_spec_witness :
    check_spreading_factor 99 = _dr_eu868_t.DR_SF7
    ∧ check_spreading_factor 0 = _dr_eu868_t.DR_SF7
    ∧ check_spreading_factor (-3) = _dr_eu868_t.DR_SF7 :=
  ⟨check_spreading_factor_spec.2.2.2.2.2.2 99 (by decide),
   check_spreading_factor_spec.2.2.2.2.2.2 0 (by decide),
   check_spreading_factor_spec.2.2.2.2.2.2 (-3) (by decide)⟩

/-- C4: when `do_send` fires with the pending flag set, it returns with the state
(so `mydata`) unchanged, makes no `LMIC_setTxData2` call, prints the stamp and
the skip line, and calls `os_setTimedCallback` exactly once, for `do_send` at
`os_getTime() + sec2osticks(20)`; in `ostime_t` arithmetic that time is exactly
`20 * OSTICKS_PER_SEC` ticks after `os_getTime()`, and it is the plain sum when
nothing overflows. -/
theorem do_send_pending_skips (env : Env) (s : State) (h : txrxPending s.LMIC = true) :
    ∃ effs, do_send env s = .ok (s, effs)
      ∧ submissions effs = []
      ∧ stdout effs = [.stamp env.hal_ticks env.time, .txrxpend]
      ∧ schedules effs
          = [(.sendjob, s4 (env.os_getTime + sec2osticks env 20), .do_send)]
      ∧ s4 (s4 (env.os_getTime + sec2osticks env 20) - env.os_getTime)
          = s4 (20 * env.OSTICKS_PER_SEC)
      ∧ (-2147483648 ≤ 20 * env.OSTICKS_PER_SEC → 20 * env.OSTICKS_PER_SEC < 2147483648 →
          -2147483648 ≤ env.os_getTime + 20 * env.OSTICKS_PER_SEC →
          env.os_getTime + 20 * env.OSTICKS_PER_SEC < 2147483648 →
          s4 (env.os_getTime + sec2osticks env 20)
            = env.os_getTime + 20 * env.OSTICKS_PER_SEC) := by
  refine ⟨_, do_send_pending env s h, ?_, ?_, ?_, ?_, ?_⟩
  · simp [submissions, reschedule]
  · simp [stdout, reschedule]
  · simp [schedules, reschedule]
  · exact s4_sub_s4_add _ _
  · intro h1 h2 h3 h4
    unfold sec2osticks
    rw [s4_of_range _ h1 h2, s4_of_range _ h3 h4]

/-- Witness for C4: a firing in `pendingState` (tick rate 32768, time 0) is
skipped and rescheduled at tick 655360. -/
theorem do_send_pending_skips_witness :
    txrxPending pendingState.LMIC = true
    ∧ ∃ effs, do_send acceptingEnv pendingState = .ok (pendingState, effs)
      ∧ submissions effs = []
      ∧ schedules effs = [(.sendjob, 655360, .do_send)] := by
  refine ⟨by decide, ?_⟩
  obtain ⟨effs, h1, h2, _, h4, _, _⟩ :=
    do_send_pending_skips acceptingEnv pendingState (by decide)
  exact ⟨effs, h1, h2, by rw [h4]; decide⟩

/-- C8: as long as no datagram has been processed (`buffer` still holds its
initial value), every firing of `do_send` with no transmit pending returns and
makes exactly one `LMIC_setTxData2` call, on port 1, with the 12 frame bytes
`"NO Data !!! "`, length 12 and confirmation 0; the firing leaves `buffer` at
its initial value, and so do a skipped firing and `onEvent`, so the same holds
at the first firing and at every later one. -/
theorem do_send_default_payload (env : Env) (s : State)
    (hbuf : s.buffer = initBuffer) (hmd : s.mydata.length = 256) :
    (txrxPending s.LMIC = false →
      ∃ s1 effs, do_send env s = .ok (s1, effs)
        ∧ submissions effs = [(1, sentinel, 12, 0)]
        ∧ s1.buffer = initBuffer ∧ s1.mydata.length = 256)
    ∧ (txrxPending s.LMIC = true → ∃ effs, do_send env s = .ok (s, effs))
    ∧ (∀ (env1 : Env) (ev : ev_t), (onEvent env1 s ev).1 = s) := by
  refine ⟨?_, ?_, ?_⟩
  · intro hidle
    have hwf : s.wf := ⟨by rw [hbuf]; decide, hmd⟩
    have hlen : sentinel.length = 12 := by decide
    have h := do_send_idle env s hwf hidle sentinel (List.replicate 243 0)
      (by rw [hbuf, initBuffer_eq]) sentinel_nonzero
    refine ⟨_, _, h, ?_, hbuf, ?_⟩
    · simp only [submissions, reschedule, hlen]
      rw [List.take_left' hlen]
    · simp [hlen, hmd]
  · intro hp
    exact ⟨_, do_send_pending env s hp⟩
  · intro env1 ev
    cases ev <;> rfl

/-- Witness for C8: the first firing, in the initial state, submits the sentinel. -/
theorem do_send_default_payload_witness :
    txrxPending initState.LMIC = false
    ∧ ∃ s1 effs, do_send acceptingEnv initState = .ok (s1, effs)
        ∧ submissions effs = [(1, sentinel, 12, 0)]
        ∧ s1.buffer = initBuffer ∧ s1.mydata.length = 256 :=
  ⟨by decide,
   (do_send_default_payload acceptingEnv initState rfl (by decide)).1 (by decide)⟩

/-- C10: when the 256-byte `buffer` contains a zero byte, an idle firing of
`do_send` returns (no access of the embedding is out of range): the copy loop
stops at the index `i` of the first zero byte, `i <= 255`, having copied
`buffer[0..i)` to `mydata[0..i)`; the terminator is written at `mydata[i]`,
the arrays keep their 256 bytes, and the length submitted is `i`. -/
theorem do_send_copy_in_range (env : Env) (s : State) (hwf : s.wf)
    (hidle : txrxPending s.LMIC = false) (hz : 0 ∈ s.buffer) :
    ∃ (i : Nat) (md : List Nat) (s1 : State) (ret : Int),
      i ≤ 255
      ∧ s.buffer[i]? = some 0
      ∧ (∀ j, j < i → ∃ c, s.buffer[j]? = some c ∧ c ≠ 0)
      ∧ copyLoop s.buffer s.mydata 0 = .ok (md, i)
      ∧ md.length = 256
      ∧ md.take i = s.buffer.take i
      ∧ strlen s.buffer = .ok i
      ∧ do_send env s = .ok (s1,
          [.out (.stamp env.hal_ticks env.time), .out (.bufSize i),
           .setTxData2 1 s1.mydata i 0 ret, reschedule env])
      ∧ s1.buffer = s.buffer
      ∧ s1.mydata = md.set i 0
      ∧ s1.mydata.length = 256
      ∧ s1.mydata.take i = s.buffer.take i
      ∧ s1.mydata[i]? = some 0
      ∧ s1.mydata.drop (i + 1) = s.mydata.drop (i + 1) := by
  obtain ⟨pre, post, hb, hpre⟩ := List.eq_append_cons_of_mem hz
  obtain ⟨hbl, hml⟩ := hwf
  have hlen : pre.length + (post.length + 1) = 256 := by
    have := hbl; rw [hb] at this; simpa using this
  have hlt : pre.length < s.mydata.length := by omega
  have hcopy := copyLoop_buffer pre post s.mydata hpre (by omega)
  have hset : (pre ++ s.mydata.drop pre.length).set pre.length 0
      = pre ++ 0 :: s.mydata.drop (pre.length + 1) := by
    obtain ⟨x, hx⟩ : ∃ x, s.mydata.drop pre.length = x :: s.mydata.drop (pre.length + 1) :=
      ⟨_, List.drop_eq_getElem_cons hlt⟩
    rw [hx]; simp
  have hsend := do_send_idle env s ⟨hbl, hml⟩ hidle pre post hb hpre
  refine ⟨pre.length, pre ++ s.mydata.drop pre.length, _, _, by omega, ?_, ?_, ?_, ?_, ?_,
    ?_, hsend, rfl, ?_, ?_, ?_, ?_, ?_⟩
  · rw [hb]; exact getElem?_after_pre pre post 0
  · intro j hj
    refine ⟨pre[j], ?_, ?_⟩
    · rw [hb, List.getElem?_append_left hj]; simp [hj]
    · intro h0
      exact hpre (h0 ▸ List.getElem_mem hj)
  · rw [hb]; exact hcopy
  · simp; omega
  · rw [hb, List.take_left, List.take_left]
  · rw [hb]; exact strlen_terminated pre post hpre
  · exact hset.symm
  · simp; omega
  · show (pre ++ 0 :: s.mydata.drop (pre.length + 1)).take pre.length = _
    rw [hb, List.take_left, List.take_left]
  · exact getElem?_after_pre pre _ 0
  · show (pre ++ 0 :: s.mydata.drop (pre.length + 1)).drop (pre.length + 1) = _
    have : pre ++ 0 :: s.mydata.drop (pre.length + 1)
        = (pre ++ [0]) ++ s.mydata.drop (pre.length + 1) := by simp
    rw [this, List.drop_left' (by simp)]

/-- Witness for C10: the initial state; the copy stops at index 12. -/
theorem do_send_copy_in_range_witness :
    initState.wf ∧ txrxPending initState.LMIC = false ∧ 0 ∈ initState.buffer
    ∧ ∃ (i : Nat) (md : List Nat) (s1 : State) (ret : Int),
      i ≤ 255
      ∧ initState.buffer[i]? = some 0
      ∧ (∀ j, j < i → ∃ c, initState.buffer[j]? = some c ∧ c ≠ 0)
      ∧ copyLoop initState.buffer initState.mydata 0 = .ok (md, i)
      ∧ md.length = 256
      ∧ md.take i = initState.buffer.take i
      ∧ strlen initState.buffer = .ok i
      ∧ do_send acceptingEnv initState = .ok (s1,
          [.out (.stamp acceptingEnv.hal_ticks acceptingEnv.time), .out (.bufSize i),
           .setTxData2 1 s1.mydata i 0 ret, reschedule acceptingEnv])
      ∧ s1.buffer = initState.buffer
      ∧ s1.mydata = md.set i 0
      ∧ s1.mydata.length = 256
      ∧ s1.mydata.take i = initState.buffer.take i
      ∧ s1.mydata[i]? = some 0
      ∧ s1.mydata.drop (i + 1) = initState.mydata.drop (i + 1) :=
  ⟨by decide, by decide, by decide,
   do_send_copy_in_range acceptingEnv initState (by decide) (by decide) (by decide)⟩

/-- C3: in every run (firings of `do_send`, events reported to `onEvent`,
Listener steps, in any order, from any state), with the transport setting
`OP_TXRXPEND` on an accepted submission and holding it until it reports
`EV_TXCOMPLETE`: a `LMIC_setTxData2` call made while the run started pending
comes after an `EV_TXCOMPLETE`, and between an accepted `LMIC_setTxData2` call
(position `i`, return value 0) and any later `LMIC_setTxData2` call (position
`j`) the trace has an `EV_TXCOMPLETE`; so no second call falls between a call
and its matching completion. -/
theorem no_overlapping_submissions (s : State) (steps : List Step) :
    (txrxPending s.LMIC = true →
      ∀ (j p : Nat) (d : List Nat) (n c : Nat) (r : Int),
        (run s steps)[j]? = some (Obs.effect (Effect.setTxData2 p d n c r)) →
        ∃ k, k < j ∧ (run s steps)[k]? = some (Obs.event ev_t.EV_TXCOMPLETE))
    ∧ (∀ (i j p : Nat) (d : List Nat) (n c p1 : Nat) (d1 : List Nat) (n1 c1 : Nat) (r1 : Int),
        i < j →
        (run s steps)[i]? = some (Obs.effect (Effect.setTxData2 p d n c 0)) →
        (run s steps)[j]? = some (Obs.effect (Effect.setTxData2 p1 d1 n1 c1 r1)) →
        ∃ k, i < k ∧ k < j ∧ (run s steps)[k]? = some (Obs.event ev_t.EV_TXCOMPLETE)) :=
  noOverlap_between (run s steps) (txrxPending s.LMIC) (run_noOverlap steps s)

/-- Witness for C3: two accepted submissions (positions 2 and 8 of the trace)
with the completion of the first between them; and a run started pending,
whose submission (position 4) comes after the completion (position 0). -/
theorem no_overlapping_submissions_witness :
    (∃ k, 2 < k ∧ k < 8 ∧
      (run initState [.fire 0 0 0 32768 true, .radio .EV_TXCOMPLETE 0 0,
        .fire 0 0 0 32768 true])[k]? = some (Obs.event ev_t.EV_TXCOMPLETE))
    ∧ (∃ k, k < 4 ∧
      (run pendingState [.radio .EV_TXCOMPLETE 0 0, .fire 0 0 0 32768 false])[k]?
        = some (Obs.event ev_t.EV_TXCOMPLETE)) :=
  ⟨(no_overlapping_submissions initState
      [.fire 0 0 0 32768 true, .radio .EV_TXCOMPLETE 0 0, .fire 0 0 0 32768 true]).2
      2 8 1 initBuffer 12 0 1 initBuffer 12 0 0 (by decide) (by decide) (by decide),
   (no_overlapping_submissions pendingState
      [.radio .EV_TXCOMPLETE 0 0, .fire 0 0 0 32768 false]).1 (by decide)
      4 1 initBuffer 12 0 (-1) (by decide)⟩

/-- C1 (code bug): after the Listener has processed `"AAA"` and then `"BB"` from
the initial state, `buffer` starts with `"BBAData !!! "`, the Listener logs
those 12 bytes as the data received, and the next idle firing of `do_send`
submits them with length 12: `recvfrom` overwrites only the first bytes of
`buffer` and no terminator is written after them. -/
theorem listener_keeps_stale_tail :
    ∃ s1 e1 s2 s3 effs,
      wait_for_datagram initState (.datagram (bytes "AAA") 0 0) = .ok (s1, e1)
      ∧ wait_for_datagram s1 (.datagram (bytes "BB") 0 0)
          = .ok (s2, [.out (.received 0 0 (bytes "BBAData !!! "))])
      ∧ s2.buffer = bytes "BBAData !!! " ++ List.replicate 244 0
      ∧ do_send acceptingEnv s2 = .ok (s3, effs)
      ∧ submissions effs = [(1, bytes "BBAData !!! ", 12, 0)] :=
  ⟨⟨bytes "AAAData !!! " ++ List.replicate 244 0, initMydata, ⟨0, 0⟩⟩,
   [.out (.received 0 0 (bytes "AAAData !!! "))],
   ⟨bytes "BBAData !!! " ++ List.replicate 244 0, initMydata, ⟨0, 0⟩⟩,
   ⟨bytes "BBAData !!! " ++ List.replicate 244 0,
    bytes "BBAData !!! " ++ List.replicate 244 0, ⟨128, 0⟩⟩,
   [.out (.stamp 0 0), .out (.bufSize 12),
    .setTxData2 1 (bytes "BBAData !!! " ++ List.replicate 244 0) 12 0 0,
    .setTimedCallback .sendjob 655360 .do_send],
   by decide, by decide, by decide, by decide, by decide⟩

/-- C2 (as stated, refuted): from the initial state, processing a datagram of 256
bytes `A` emits the truncation warning and leaves `buffer` holding those 256
bytes, not its prior content. -/
theorem truncated_datagram_changes_buffer :
    wait_for_datagram initState (.datagram fullDatagram 0 0)
      = .ok (unterminatedState, [.out .truncated])
    ∧ unterminatedState.buffer ≠ initState.buffer := by
  decide

/-- C2 (amended): for every prior content of the 256-byte `buffer` and every
datagram of which `recvfrom` receives 256 bytes (a datagram of 256 bytes or
more), the Listener step returns with `buffer` overwritten by the first 256
bytes of the datagram, `mydata` and `LMIC` untouched, and emits the
truncation warning and nothing else. -/
theorem wait_for_datagram_truncated (s : State) (payload : List Nat) (addr port : Nat)
    (hb : s.buffer.length = 256) (hp : 256 ≤ payload.length) :
    (recvfrom s.buffer 256 payload).2 = 256
    ∧ wait_for_datagram s (.datagram payload addr port)
        = .ok (⟨payload.take 256, s.mydata, s.LMIC⟩, [.out .truncated]) := by
  have hmin : min payload.length 256 = 256 := Nat.min_eq_right hp
  have hdrop : s.buffer.drop 256 = [] := List.drop_eq_nil_of_le (by omega)
  constructor
  · simp [recvfrom, hmin]
  · simp [wait_for_datagram, recvfrom, hmin, hdrop]

/-- Witness for C2 (amended): the initial state and 256 bytes `A`. -/
theorem wait_for_datagram_truncated_witness :
    initState.buffer.length = 256 ∧ 256 ≤ fullDatagram.length
    ∧ (recvfrom initState.buffer 256 fullDatagram).2 = 256
    ∧ wait_for_datagram initState (.datagram fullDatagram 7 9)
        = .ok (⟨fullDatagram.take 256, initState.mydata, initState.LMIC⟩, [.out .truncated]) :=
  ⟨by decide, by decide,
   wait_for_datagram_truncated initState fullDatagram 7 9 (by decide) (by decide)⟩

/-- C5: in every state with the pending flag set, the step in which the
transport reports `EV_TXCOMPLETE` and `onEvent` handles it returns, logs the
completion time (and `Data Received!` when downlink data came with it) and
ends in an idle state, `buffer` and `mydata` untouched; every other step that
returns (a firing of `do_send`, `onEvent` on any other event, a Listener
step) ends with the flag still set, and a firing of `do_send` does return,
with the state as it was.  `onEvent` itself never changes the state: the
flag is cleared on the transport's side of the report. -/
theorem pending_cleared_only_by_txcomplete (s : State) (h : txrxPending s.LMIC = true) :
    (∀ millis dataLen : Nat,
      ∃ s1 : State,
        step s (.radio .EV_TXCOMPLETE millis dataLen)
          = .ok (s1, Obs.event .EV_TXCOMPLETE ::
              Obs.effect (.out (.txcomplete (millis / 1000))) ::
              (if dataLen ≠ 0 then [Obs.effect (.out .dataReceived)] else []))
        ∧ txrxPending s1.LMIC = false
        ∧ s1.buffer = s.buffer ∧ s1.mydata = s.mydata)
    ∧ (∀ (st : Step) (s1 : State) (obs : List Obs),
        (∀ millis dataLen : Nat, st ≠ .radio .EV_TXCOMPLETE millis dataLen) →
        step s st = .ok (s1, obs) → txrxPending s1.LMIC = true)
    ∧ (∀ (hal : Nat) (t now tps : Int) (accept : Bool),
        ∃ obs, step s (.fire hal t now tps accept) = .ok (s, obs))
    ∧ (∀ (env : Env) (t : State) (ev : ev_t), (onEvent env t ev).1 = t) := by
  refine ⟨?_, ?_, ?_, ?_⟩
  · intro millis dataLen
    refine ⟨⟨s.buffer, s.mydata, ⟨s.LMIC.opmode &&& 0xFF7F, dataLen⟩⟩, ?_,
      txrxPending_clear _ _, rfl, rfl⟩
    by_cases hd : dataLen = 0 <;> simp [step, onEvent, reportEvent, eventEnv, hd]
  · intro st s1 obs hne hst
    cases st with
    | fire hal t now tps accept =>
      simp only [step, do_send_pending _ _ h, Except.ok.injEq, Prod.mk.injEq] at hst
      rw [← hst.1]; exact h
    | radio ev millis dataLen =>
      cases ev with
      | EV_TXCOMPLETE => exact absurd rfl (hne millis dataLen)
      | other code =>
        simp only [step, onEvent, reportEvent, Except.ok.injEq, Prod.mk.injEq] at hst
        rw [← hst.1]; exact h
    | recv r =>
      simp only [step] at hst
      cases hr : wait_for_datagram s r with
      | error e => rw [hr] at hst; cases hst
      | ok res =>
        obtain ⟨s2, effs⟩ := res
        rw [hr] at hst
        simp only [Except.ok.injEq, Prod.mk.injEq] at hst
        rw [← hst.1, (wait_for_datagram_frame s s2 r effs hr).1]; exact h
  · intro hal t now tps accept
    exact ⟨_, by simp only [step, do_send_pending _ _ h]; rfl⟩
  · intro env t ev
    cases ev <;> rfl

/-- Witness for C5: from `pendingState`, the completion step ends idle, and a
skipped firing and a Listener step end pending. -/
theorem pending_cleared_only_by_txcomplete_witness :
    txrxPending pendingState.LMIC = true
    ∧ (∃ s1 : State,
        step pendingState (.radio .EV_TXCOMPLETE 5000 0)
          = .ok (s1, Obs.event .EV_TXCOMPLETE ::
              Obs.effect (.out (.txcomplete (5000 / 1000))) ::
              (if 0 ≠ 0 then [Obs.effect (.out .dataReceived)] else []))
        ∧ txrxPending s1.LMIC = false
        ∧ s1.buffer = pendingState.buffer ∧ s1.mydata = pendingState.mydata)
    ∧ txrxPending (⟨bytes "AAAData !!! " ++ List.replicate 244 0, initMydata, ⟨128, 0⟩⟩
        : State).LMIC = true
    ∧ (∃ obs, step pendingState (.fire 0 0 0 32768 true) = .ok (pendingState, obs)) :=
  ⟨by decide,
   (pending_cleared_only_by_txcomplete pendingState (by decide)).1 5000 0,
   (pending_cleared_only_by_txcomplete pendingState (by decide)).2.1
      (.recv (.datagram (bytes "AAA") 0 0)) _
      [Obs.effect (.out (.received 0 0 (bytes "AAAData !!! ")))]
      (by intro _ _ hc; cases hc) (by decide),
   (pending_cleared_only_by_txcomplete pendingState (by decide)).2.2.1 0 0 0 32768 true⟩

/-- C6 (as stated, refuted): in the initial state, with a transport that refuses
the submission (`LMIC_setTxData2` returns -1), `do_send` prints the stamp and
`buf size = 12` and nothing else, exactly what it prints when the submission
is accepted: the refusal is not logged. -/
theorem refusal_is_not_logged :
    ∃ s1 e1 s2 e2 frame,
      do_send refusingEnv initState = .ok (s1, e1)
      ∧ Effect.setTxData2 1 frame 12 0 (-1) ∈ e1
      ∧ stdout e1 = [.stamp 0 0, .bufSize 12]
      ∧ do_send acceptingEnv initState = .ok (s2, e2)
      ∧ Effect.setTxData2 1 frame 12 0 0 ∈ e2
      ∧ stdout e2 = stdout e1 :=
  ⟨⟨initBuffer, initBuffer, ⟨0, 0⟩⟩,
   [.out (.stamp 0 0), .out (.bufSize 12), .setTxData2 1 initBuffer 12 0 (-1),
    .setTimedCallback .sendjob 655360 .do_send],
   ⟨initBuffer, initBuffer, ⟨128, 0⟩⟩,
   [.out (.stamp 0 0), .out (.bufSize 12), .setTxData2 1 initBuffer 12 0 0,
    .setTimedCallback .sendjob 655360 .do_send],
   initBuffer,
   by decide, by decide, by decide, by decide, by decide, by decide⟩

/-- C6 (amended): in an idle firing of `do_send` on a well-formed state whose
`buffer` has a zero byte, with a transport whose `LMIC_setTxData2` returns
`ret` (a refusal when non-zero) and leaves `LMIC` as it was, `do_send` returns
with `LMIC` (so the pending flag) as it was; it prints the stamp and the
`buf size` line only, whatever `ret` is, and ends with the one call
`os_setTimedCallback(&sendjob, os_getTime() + sec2osticks(20), do_send)`. -/
theorem do_send_discards_result (env : Env) (s : State) (ret : Int) (hwf : s.wf)
    (hidle : txrxPending s.LMIC = false) (hz : 0 ∈ s.buffer)
    (hT : ∀ (d : List Nat) (n : Nat), env.LMIC_setTxData2 s.LMIC 1 d n 0 = (s.LMIC, ret)) :
    ∃ (md : List Nat) (n : Nat) (effs : List Effect),
      do_send env s = .ok (⟨s.buffer, md, s.LMIC⟩, effs)
      ∧ effs = [.out (.stamp env.hal_ticks env.time), .out (.bufSize n),
          .setTxData2 1 md n 0 ret, reschedule env]
      ∧ stdout effs = [.stamp env.hal_ticks env.time, .bufSize n]
      ∧ schedules effs
          = [(.sendjob, s4 (env.os_getTime + sec2osticks env 20), .do_send)] := by
  obtain ⟨pre, post, hb, hpre⟩ := List.eq_append_cons_of_mem hz
  have h := do_send_idle env s hwf hidle pre post hb hpre
  rw [hT] at h
  exact ⟨_, _, _, h, rfl, by simp [stdout, reschedule], by simp [schedules, reschedule]⟩

/-- Witness for C6 (amended): the initial state and the refusing transport. -/
theorem do_send_discards_result_witness :
    ∃ (md : List Nat) (n : Nat) (effs : List Effect),
      do_send refusingEnv initState = .ok (⟨initState.buffer, md, initState.LMIC⟩, effs)
      ∧ effs = [.out (.stamp refusingEnv.hal_ticks refusingEnv.time), .out (.bufSize n),
          .setTxData2 1 md n 0 (-1), reschedule refusingEnv]
      ∧ stdout effs = [.stamp refusingEnv.hal_ticks refusingEnv.time, .bufSize n]
      ∧ schedules effs
          = [(.sendjob, s4 (refusingEnv.os_getTime + sec2osticks refusingEnv 20), .do_send)] :=
  do_send_discards_result refusingEnv initState (-1) (by decide) (by decide) (by decide)
    (fun _ _ => rfl)

/-- C9 (code bug): a datagram of 256 non-zero bytes leaves `buffer` without a zero
byte (the Listener only warns); the next idle firing of `do_send` then runs
its copy loop past the end of `buffer` and `mydata`: the embedding halts with
`outOfRange`, there is no snapshot and no state after the firing. -/
theorem do_send_overruns_unterminated_buffer :
    wait_for_datagram initState (.datagram fullDatagram 0 0)
      = .ok (unterminatedState, [.out .truncated])
    ∧ unterminatedState.wf
    ∧ txrxPending unterminatedState.LMIC = false
    ∧ copyLoop unterminatedState.buffer unterminatedState.mydata 0 = .error .outOfRange
    ∧ do_send acceptingEnv unterminatedState = .error .outOfRange := by
  decide

end UdpWaitAndSend
